import Mathlib

/-!
Verification development for the meeting-room booking backend.

The repository contains two variants of the same Express service:
a SQLite-backed one (with GET, POST, PUT, DELETE handlers) and a
PostgreSQL-backed one (GET, POST, DELETE).  Dates are `YYYY-MM-DD`
strings and times are `HH:MM` strings, both compared lexicographically
by the SQL layer; we model them as `String` compared by the
lexicographic order of their character lists (see `TimeLt`).
The record store is modelled as a list of rows in insertion order
together with the AUTOINCREMENT counter.
-/

namespace MeetingRoom

/-- Strict comparison of two TEXT values, as SQLite and PostgreSQL
compare the `date`, `startTime` and `endTime` columns: byte-wise
lexicographic order, which on these ASCII strings is exactly the
lexicographic order of the character lists.  Core Lean defines
`String.lt` as this very order on `String.data`; we state it on
`String.data` directly so that it is kernel-computable. -/
def TimeLt (a b : String) : Prop := a.data < b.data

/-- Non-strict TEXT comparison, counterpart of `TimeLt`. -/
def TimeLe (a b : String) : Prop := a.data ≤ b.data

instance (a b : String) : Decidable (TimeLt a b) := by
  unfold TimeLt; infer_instance

instance (a b : String) : Decidable (TimeLe a b) := by
  unfold TimeLe; infer_instance

/-- A stored booking row.  `createdAt` is assigned by the store
(`DEFAULT CURRENT_TIMESTAMP`); in HTTP response objects that omit the
key it is `none`. -/
structure Booking where
  id : Nat
  title : String
  date : String
  startTime : String
  endTime : String
  attendees : Option Int
  notes : Option String
  createdAt : Option String
deriving DecidableEq, Repr

/-- A request body for POST or PUT.  In the JS handlers a field is
rejected when falsy, which for these string fields means absent or
empty, so an absent field is modelled as `""`. -/
structure BookingReq where
  title : String
  date : String
  startTime : String
  endTime : String
  attendees : Option Int
  notes : Option String
deriving DecidableEq, Repr

/-- The observable HTTP outcome of a handler. -/
inductive Resp where
  | created : Booking → Resp
  | okBooking : Booking → Resp
  | okList : List Booking → Resp
  | okMessage : String → Resp
  | badRequest : String → Resp
  | notFound : String → Resp
  | conflict : String → Resp
deriving DecidableEq, Repr

/-- The bookings table: rows in insertion order plus the
AUTOINCREMENT counter for the next `id`. -/
structure Store where
  rows : List Booking
  nextId : Nat
deriving DecidableEq, Repr

/-- The store right after `CREATE TABLE`: no rows, ids start at 1. -/
def Store.empty : Store := { rows := [], nextId := 1 }

/-- Conflict test of the SQLite variant, from the POST handler WHERE
clause (also used, with an id exclusion, by the PUT handler):
`(startTime <= ?s AND endTime > ?s) OR (startTime < ?e AND endTime >= ?e)
OR (startTime >= ?s AND endTime <= ?e)` where `s, e` are the candidate
interval and `bs, be` the stored row columns. -/
def conflictSqlite (s e bs be : String) : Bool :=
  decide ((TimeLe bs s ∧ TimeLt s be) ∨ (TimeLt bs e ∧ TimeLe e be) ∨ (TimeLe s bs ∧ TimeLe be e))

/-- Conflict test of the PostgreSQL variant, from its POST handler
WHERE clause with `$2 = endTime`, `$3 = startTime`:
`("startTime" < $2 AND "endTime" > $3) OR ("startTime" >= $3 AND "startTime" < $2)`. -/
def conflictPg (s e bs be : String) : Bool :=
  decide ((TimeLt bs e ∧ TimeLt s be) ∨ (TimeLe s bs ∧ TimeLt bs e))

/-- Comparator of `ORDER BY startTime`. -/
def leStart (a b : Booking) : Bool :=
  decide (TimeLe a.startTime b.startTime)

/-- GET /api/bookings/:date — `SELECT * FROM bookings WHERE date = ?
ORDER BY startTime`.  SQL guarantees only that the result consists of
exactly the rows matching the date, arranged so that the startTime
column is non-decreasing; both SQLite and PostgreSQL leave the
relative order of rows with equal sort keys unspecified, and the
query requests no further tie-break.  The read-only query is
therefore modelled as a relation between the store, the requested
date, an admissible response list, and the (unchanged) store after
the request. -/
def getByDate (db : Store) (date : String) (out : List Booking) (db' : Store) : Prop :=
  db' = db ∧
  out.Perm (db.rows.filter (fun b => b.date == date)) ∧
  out.Pairwise (fun a b => TimeLe a.startTime b.startTime)

instance (db : Store) (date : String) (out : List Booking) (db' : Store) :
    Decidable (getByDate db date out db') := by
  unfold getByDate; infer_instance

/-- Row update applied by the SQL `UPDATE ... SET` clause: the six
body fields are written, `id` and `createdAt` are not mentioned and
keep their stored values. -/
def updRow (req : BookingReq) (b : Booking) : Booking :=
  { b with title := req.title, date := req.date, startTime := req.startTime,
           endTime := req.endTime, attendees := req.attendees, notes := req.notes }

/-- POST /api/bookings of the SQLite variant: falsy-field validation,
then the conflict query on the same date, then INSERT.  The response
object literal carries the new id and the request fields but no
createdAt key. -/
def postBooking (db : Store) (req : BookingReq) (now : String) : Resp × Store :=
  if req.title = "" ∨ req.date = "" ∨ req.startTime = "" ∨ req.endTime = "" then
    (.badRequest "Missing required fields", db)
  else if db.rows.any (fun b =>
      b.date == req.date && conflictSqlite req.startTime req.endTime b.startTime b.endTime) then
    (.conflict "Time slot conflict", db)
  else
    let nb : Booking :=
      { id := db.nextId, title := req.title, date := req.date,
        startTime := req.startTime, endTime := req.endTime,
        attendees := req.attendees, notes := req.notes, createdAt := some now }
    (.created { nb with createdAt := none },
     { rows := db.rows ++ [nb], nextId := db.nextId + 1 })

/-- PUT /api/bookings/:id of the SQLite variant: falsy-field
validation, the conflict query excluding the row with the given id,
then `UPDATE ... WHERE id = ?`; a write affecting zero rows yields the
not-found response.  The response object literal carries the id and
the request fields but no createdAt key. -/
def putBooking (db : Store) (id : Nat) (req : BookingReq) : Resp × Store :=
  if req.title = "" ∨ req.date = "" ∨ req.startTime = "" ∨ req.endTime = "" then
    (.badRequest "Missing required fields", db)
  else if db.rows.any (fun b =>
      b.date == req.date && b.id != id &&
        conflictSqlite req.startTime req.endTime b.startTime b.endTime) then
    (.conflict "Time slot conflict", db)
  else
    let changes := (db.rows.filter (fun b => b.id == id)).length
    let db' : Store := { db with rows := db.rows.map (fun b => if b.id = id then updRow req b else b) }
    if changes = 0 then (.notFound "Booking not found", db')
    else
      (.okBooking
        { id := id, title := req.title, date := req.date,
          startTime := req.startTime, endTime := req.endTime,
          attendees := req.attendees, notes := req.notes, createdAt := none },
       db')

/-- DELETE /api/bookings/:id — `DELETE FROM bookings WHERE id = ?`; a
delete affecting zero rows yields the not-found response. -/
def deleteBooking (db : Store) (id : Nat) : Resp × Store :=
  let changes := (db.rows.filter (fun b => b.id == id)).length
  let db' : Store := { db with rows := db.rows.filter (fun b => b.id != id) }
  if changes = 0 then (.notFound "Booking not found", db')
  else (.okMessage "Booking deleted successfully", db')

/-- A mutating request against the service. -/
inductive Op where
  | create : BookingReq → String → Op
  | update : Nat → BookingReq → Op
  | delete : Nat → Op

/-- State reached after one mutating request. -/
def applyOp (db : Store) : Op → Store
  | .create req now => (postBooking db req now).2
  | .update id req => (putBooking db id req).2
  | .delete id => (deleteBooking db id).2

/-- State reached by a sequence of mutating requests from the empty
table. -/
def run (ops : List Op) : Store :=
  ops.foldl applyOp Store.empty

/-- Two rows do not violate the half-open no-overlap rule: if they
share a date their `[startTime, endTime)` intervals are disjoint. -/
def noOverlap (b1 b2 : Booking) : Prop :=
  b1.date = b2.date → ¬(TimeLt b1.startTime b2.endTime ∧ TimeLt b2.startTime b1.endTime)

/-- Invariant maintained by every mutating handler: stored ids are
strictly increasing in row order (hence pairwise distinct) and below
the AUTOINCREMENT counter, and no two stored rows on the same date
overlap. -/
def Inv (db : Store) : Prop :=
  db.rows.Pairwise (fun a b => a.id < b.id) ∧
  (∀ b ∈ db.rows, b.id < db.nextId) ∧
  db.rows.Pairwise noOverlap

/-! Order facts about the two conflict predicates.  Throughout,
`s, e` is the candidate interval and `bs, be` a stored interval. -/

/-- A candidate that truly overlaps a stored row (in the half-open
sense) is always flagged by the SQLite conflict query, with no
assumption on the well-formedness of either interval. -/
theorem overlap_conflictSqlite {s e bs be : String}
    (h1 : TimeLt s be) (h2 : TimeLt bs e) :
    conflictSqlite s e bs be = true := by
  simp only [conflictSqlite, decide_eq_true_eq]
  simp only [TimeLt, TimeLe] at *
  rcases le_or_lt bs.data s.data with hle | hlt
  · exact Or.inl ⟨hle, h1⟩
  · rcases le_or_lt be.data e.data with hle2 | hlt2
    · exact Or.inr (Or.inr ⟨le_of_lt hlt, hle2⟩)
    · exact Or.inr (Or.inl ⟨h2, le_of_lt hlt2⟩)

/-- On well-formed intervals the SQLite conflict query flags only true
half-open overlaps. -/
theorem conflictSqlite_overlap {s e bs be : String}
    (hse : TimeLt s e) (hb : TimeLt bs be)
    (h : conflictSqlite s e bs be = true) :
    TimeLt s be ∧ TimeLt bs e := by
  simp only [conflictSqlite, decide_eq_true_eq] at h
  simp only [TimeLt, TimeLe] at *
  rcases h with ⟨h1, h2⟩ | ⟨h1, h2⟩ | ⟨h1, h2⟩
  · exact ⟨h2, lt_of_le_of_lt h1 hse⟩
  · exact ⟨lt_of_lt_of_le hse h2, h1⟩
  · exact ⟨lt_of_le_of_lt h1 hb, lt_of_lt_of_le hb h2⟩

/-- A candidate that truly overlaps a stored row is always flagged by
the PostgreSQL conflict query. -/
theorem overlap_conflictPg {s e bs be : String}
    (h1 : TimeLt s be) (h2 : TimeLt bs e) :
    conflictPg s e bs be = true := by
  simp only [conflictPg, decide_eq_true_eq]
  exact Or.inl ⟨h2, h1⟩

/-- On a well-formed stored interval the PostgreSQL conflict query
flags only true half-open overlaps. -/
theorem conflictPg_overlap {s e bs be : String}
    (hb : TimeLt bs be)
    (h : conflictPg s e bs be = true) :
    TimeLt s be ∧ TimeLt bs e := by
  simp only [conflictPg, decide_eq_true_eq] at h
  simp only [TimeLt, TimeLe] at *
  rcases h with ⟨h1, h2⟩ | ⟨h1, h2⟩
  · exact ⟨h2, h1⟩
  · exact ⟨lt_of_le_of_lt h1 hb, h2⟩

/-- C2: for every candidate interval `[s1,e1)` and stored interval
`[s2,e2)`, each satisfying `startTime < endTime`, the conflict
predicate of each of the two variants holds iff the canonical
half-open overlap condition `s1 < e2 AND s2 < e1` holds, and hence the
two variants agree on all such inputs. -/
theorem claim_C2_conflict_equivalence (s e bs be : String)
    (hse : TimeLt s e) (hb : TimeLt bs be) :
    (conflictSqlite s e bs be = true ↔ TimeLt s be ∧ TimeLt bs e) ∧
    (conflictPg s e bs be = true ↔ TimeLt s be ∧ TimeLt bs e) ∧
    conflictSqlite s e bs be = conflictPg s e bs be := by
  refine ⟨⟨fun h => conflictSqlite_overlap hse hb h, fun h => overlap_conflictSqlite h.1 h.2⟩,
    ⟨fun h => conflictPg_overlap hb h, fun h => overlap_conflictPg h.1 h.2⟩, ?_⟩
  rcases hA : conflictSqlite s e bs be with _ | _ <;>
    rcases hB : conflictPg s e bs be with _ | _
  · rfl
  · rcases conflictPg_overlap hb hB with ⟨o1, o2⟩
    rw [overlap_conflictSqlite o1 o2] at hA
    exact hA.symm
  · rcases conflictSqlite_overlap hse hb hA with ⟨o1, o2⟩
    rw [overlap_conflictPg o1 o2] at hB
    exact hB
  · rfl

/-- Witness for C2 at the concrete input of the spec scenario: the
candidate `[09:15,09:45)` against the stored row `[09:00,09:30)`. -/
theorem claim_C2_witness :
    conflictSqlite "09:15" "09:45" "09:00" "09:30" =
      conflictPg "09:15" "09:45" "09:00" "09:30" :=
  (claim_C2_conflict_equivalence "09:15" "09:45" "09:00" "09:30"
    (by decide) (by decide)).2.2

/-- C3, evaluated at the failing input: the create handler performs no
`startTime < endTime` validation.  For the candidate with
`startTime = "11:00"` and `endTime = "10:00"` (so the start is not
before the end) on an empty store, the code returns the created
response and inserts the degenerate row, instead of the validation
error the claim requires. -/
theorem claim_C3_create_admits_invalid_range :
    ¬ TimeLt "11:00" "10:00" ∧
    postBooking Store.empty ⟨"Standup", "2024-03-01", "11:00", "10:00", none, none⟩ "t0" =
      (.created ⟨1, "Standup", "2024-03-01", "11:00", "10:00", none, none, none⟩,
       ⟨[⟨1, "Standup", "2024-03-01", "11:00", "10:00", none, none, some "t0"⟩], 2⟩) := by
  decide

/-- C4: on an empty date, creating `[10:00,11:00)` and then
`[11:00,12:00)` both succeed, and in general a stored interval
touching the candidate at a boundary (stored end equals candidate
start, or stored start equals candidate end) is not flagged as a
conflict by either variant, for well-formed intervals. -/
theorem claim_C4_boundary_admission :
    (postBooking Store.empty ⟨"Standup", "2024-03-01", "10:00", "11:00", none, none⟩ "t1" =
      (.created ⟨1, "Standup", "2024-03-01", "10:00", "11:00", none, none, none⟩,
       ⟨[⟨1, "Standup", "2024-03-01", "10:00", "11:00", none, none, some "t1"⟩], 2⟩) ∧
     postBooking ⟨[⟨1, "Standup", "2024-03-01", "10:00", "11:00", none, none, some "t1"⟩], 2⟩
        ⟨"Sync", "2024-03-01", "11:00", "12:00", none, none⟩ "t2" =
      (.created ⟨2, "Sync", "2024-03-01", "11:00", "12:00", none, none, none⟩,
       ⟨[⟨1, "Standup", "2024-03-01", "10:00", "11:00", none, none, some "t1"⟩,
         ⟨2, "Sync", "2024-03-01", "11:00", "12:00", none, none, some "t2"⟩], 3⟩)) ∧
    ∀ s e bs be : String, TimeLt s e → TimeLt bs be → (be = s ∨ bs = e) →
      conflictSqlite s e bs be = false ∧ conflictPg s e bs be = false := by
  refine ⟨⟨by decide, by decide⟩, ?_⟩
  intro s e bs be hse hb htouch
  have hno : ¬(TimeLt s be ∧ TimeLt bs e) := by
    rintro ⟨o1, o2⟩
    simp only [TimeLt] at o1 o2
    rcases htouch with rfl | rfl
    · exact lt_irrefl _ o1
    · exact lt_irrefl _ o2
  constructor
  · rcases hc : conflictSqlite s e bs be with _ | _
    · rfl
    · exact absurd (conflictSqlite_overlap hse hb hc) hno
  · rcases hc : conflictPg s e bs be with _ | _
    · rfl
    · exact absurd (conflictPg_overlap hb hc) hno

/-- Witness for C4 at the concrete boundary pair of the spec: stored
`[10:00,11:00)`, candidate `[11:00,12:00)`. -/
theorem claim_C4_witness :
    conflictSqlite "11:00" "12:00" "10:00" "11:00" = false :=
  (claim_C4_boundary_admission.2 "11:00" "12:00" "10:00" "11:00"
    (by decide) (by decide) (Or.inl rfl)).1

/-- C6: a create or update request with a missing or empty required
field is answered with the missing-fields validation error and leaves
the store untouched. -/
theorem claim_C6_missing_fields (db : Store) (req : BookingReq) (now : String) (id : Nat)
    (h : req.title = "" ∨ req.date = "" ∨ req.startTime = "" ∨ req.endTime = "") :
    postBooking db req now = (.badRequest "Missing required fields", db) ∧
    putBooking db id req = (.badRequest "Missing required fields", db) := by
  rcases h with h | h | h | h <;> simp [postBooking, putBooking, h]

/-- Witness for C6: a create and an update with an empty title on the
empty store. -/
theorem claim_C6_witness :
    postBooking Store.empty ⟨"", "2024-01-01", "10:00", "11:00", none, none⟩ "t0" =
      (.badRequest "Missing required fields", Store.empty) ∧
    putBooking Store.empty 1 ⟨"", "2024-01-01", "10:00", "11:00", none, none⟩ =
      (.badRequest "Missing required fields", Store.empty) :=
  claim_C6_missing_fields Store.empty ⟨"", "2024-01-01", "10:00", "11:00", none, none⟩
    "t0" 1 (Or.inl rfl)

/-- C8: delete answers not-found exactly when no stored row carries
the requested id; otherwise it removes that row and answers success,
with no conflict re-validation and regardless of the other rows. -/
theorem claim_C8_delete (db : Store) (id : Nat) :
    ((∀ b ∈ db.rows, b.id ≠ id) →
      deleteBooking db id = (.notFound "Booking not found", db)) ∧
    ((∃ b ∈ db.rows, b.id = id) →
      deleteBooking db id =
        (.okMessage "Booking deleted successfully",
         { db with rows := db.rows.filter (fun b => b.id != id) })) := by
  constructor
  · intro h
    have hf0 : db.rows.filter (fun b => b.id == id) = [] := by
      rw [List.filter_eq_nil_iff]
      intro b hb
      simpa using h b hb
    have hfs : db.rows.filter (fun b => b.id != id) = db.rows := by
      rw [List.filter_eq_self]
      intro b hb
      simpa using h b hb
    simp [deleteBooking, hf0, hfs]
  · rintro ⟨b, hb, rfl⟩
    have hne : (db.rows.filter (fun x => x.id == b.id)).length ≠ 0 := by
      intro h0
      rw [List.length_eq_zero] at h0
      have hmem : b ∈ db.rows.filter (fun x => x.id == b.id) :=
        List.mem_filter.mpr ⟨hb, by simp⟩
      rw [h0] at hmem
      exact absurd hmem (List.not_mem_nil _)
    simp [deleteBooking, hne]

/-- Witness for C8: deleting the only stored row by its id. -/
theorem claim_C8_witness :
    deleteBooking ⟨[⟨1, "A", "2024-01-01", "08:00", "09:00", none, none, none⟩], 2⟩ 1 =
      (.okMessage "Booking deleted successfully", ⟨[], 2⟩) := by
  have h := (claim_C8_delete ⟨[⟨1, "A", "2024-01-01", "08:00", "09:00", none, none, none⟩], 2⟩ 1).2
    ⟨⟨1, "A", "2024-01-01", "08:00", "09:00", none, none, none⟩, by simp, rfl⟩
  simpa using h

/-- The no-overlap relation between rows is symmetric. -/
theorem noOverlap_symm {a b : Booking} (h : noOverlap a b) : noOverlap b a := by
  intro hd ⟨o1, o2⟩
  exact h hd.symm ⟨o2, o1⟩

/-- The create handler preserves the store invariant. -/
theorem inv_postBooking (db : Store) (req : BookingReq) (now : String) (h : Inv db) :
    Inv (postBooking db req now).2 := by
  by_cases hv : req.title = "" ∨ req.date = "" ∨ req.startTime = "" ∨ req.endTime = ""
  · simpa [postBooking, hv] using h
  rcases hany : db.rows.any (fun b =>
      b.date == req.date && conflictSqlite req.startTime req.endTime b.startTime b.endTime)
    with _ | _
  · have hscan : ∀ b ∈ db.rows, b.date = req.date →
        conflictSqlite req.startTime req.endTime b.startTime b.endTime = false := by
      rw [List.any_eq_false] at hany
      intro b hb hd
      have := hany b hb
      simp [hd] at this
      exact this
    have h2 : (postBooking db req now).2 =
        ⟨db.rows ++ [⟨db.nextId, req.title, req.date, req.startTime, req.endTime,
          req.attendees, req.notes, some now⟩], db.nextId + 1⟩ := by
      simp [postBooking, hv, hany]
    rw [h2]
    refine ⟨?_, ?_, ?_⟩
    · rw [List.pairwise_append]
      refine ⟨h.1, List.pairwise_singleton _ _, ?_⟩
      intro a ha b hb
      rw [List.mem_singleton] at hb
      subst hb
      exact h.2.1 a ha
    · intro b hb
      rw [List.mem_append] at hb
      rcases hb with hb | hb
      · exact Nat.lt_trans (h.2.1 b hb) (Nat.lt_succ_self _)
      · rw [List.mem_singleton] at hb
        subst hb
        exact Nat.lt_succ_self _
    · rw [List.pairwise_append]
      refine ⟨h.2.2, List.pairwise_singleton _ _, ?_⟩
      intro a ha b hb
      rw [List.mem_singleton] at hb
      subst hb
      intro hd ⟨o1, o2⟩
      have hc := overlap_conflictSqlite o2 o1
      rw [hscan a ha hd] at hc
      exact Bool.false_ne_true hc
  · simpa [postBooking, hv, hany] using h

/-- The update handler preserves the store invariant. -/
theorem inv_putBooking (db : Store) (id : Nat) (req : BookingReq) (h : Inv db) :
    Inv (putBooking db id req).2 := by
  by_cases hv : req.title = "" ∨ req.date = "" ∨ req.startTime = "" ∨ req.endTime = ""
  · simpa [putBooking, hv] using h
  rcases hany : db.rows.any (fun b =>
      b.date == req.date && b.id != id &&
        conflictSqlite req.startTime req.endTime b.startTime b.endTime)
    with _ | _
  · have hscan : ∀ b ∈ db.rows, b.date = req.date → b.id ≠ id →
        conflictSqlite req.startTime req.endTime b.startTime b.endTime = false := by
      rw [List.any_eq_false] at hany
      intro b hb hd hne
      have := hany b hb
      simp [hd, hne] at this
      exact this
    have h2 : (putBooking db id req).2 =
        { db with rows := db.rows.map (fun b => if b.id = id then updRow req b else b) } := by
      by_cases hch : (db.rows.filter (fun b => b.id == id)).length = 0 <;>
        simp [putBooking, hv, hany, hch]
    rw [h2]
    have hid : ∀ b : Booking, ((fun b => if b.id = id then updRow req b else b) b).id = b.id := by
      intro b
      by_cases hb : b.id = id <;> simp [hb, updRow]
    refine ⟨?_, ?_, ?_⟩
    · rw [List.pairwise_map]
      refine h.1.imp ?_
      intro a b hab
      rw [hid a, hid b]
      exact hab
    · intro b hb
      rw [List.mem_map] at hb
      rcases hb with ⟨a, ha, rfl⟩
      rw [hid a]
      exact h.2.1 a ha
    · rw [List.pairwise_map]
      refine (h.1.and h.2.2).imp_of_mem ?_
      intro a b ha hb hab
      rcases hab with ⟨hlt, hno⟩
      have hne : a.id ≠ b.id := Nat.ne_of_lt hlt
      by_cases ha' : a.id = id <;> by_cases hb' : b.id = id
      · exact absurd (ha'.trans hb'.symm) hne
      · rw [if_pos ha', if_neg hb']
        intro hd o
        rcases o with ⟨o1, o2⟩
        simp only [updRow] at hd o1 o2
        have hc := overlap_conflictSqlite o1 o2
        rw [hscan b hb hd.symm hb'] at hc
        exact Bool.false_ne_true hc
      · rw [if_neg ha', if_pos hb']
        intro hd o
        rcases o with ⟨o1, o2⟩
        simp only [updRow] at hd o1 o2
        have hc := overlap_conflictSqlite o2 o1
        rw [hscan a ha hd ha'] at hc
        exact Bool.false_ne_true hc
      · rw [if_neg ha', if_neg hb']
        exact hno
  · simpa [putBooking, hv, hany] using h

/-- The delete handler preserves the store invariant. -/
theorem inv_deleteBooking (db : Store) (id : Nat) (h : Inv db) :
    Inv (deleteBooking db id).2 := by
  have h2 : (deleteBooking db id).2 =
      { db with rows := db.rows.filter (fun b => b.id != id) } := by
    by_cases hch : (db.rows.filter (fun b => b.id == id)).length = 0 <;>
      simp [deleteBooking, hch]
  rw [h2]
  refine ⟨h.1.filter _, ?_, h.2.2.filter _⟩
  intro b hb
  exact h.2.1 b (List.mem_filter.mp hb).1

/-- Every mutating request preserves the store invariant. -/
theorem inv_applyOp (db : Store) (op : Op) (h : Inv db) : Inv (applyOp db op) := by
  cases op with
  | create req now => exact inv_postBooking db req now h
  | update id req => exact inv_putBooking db id req h
  | delete id => exact inv_deleteBooking db id h

/-- The empty table satisfies the store invariant. -/
theorem inv_empty : Inv Store.empty := by
  refine ⟨List.Pairwise.nil, ?_, List.Pairwise.nil⟩
  intro b hb
  cases hb

/-- The invariant holds after any sequence of mutating requests. -/
theorem inv_run (ops : List Op) : Inv (run ops) := by
  rw [run]
  generalize hdb : Store.empty = db
  have h : Inv db := hdb ▸ inv_empty
  clear hdb
  induction ops generalizing db with
  | nil => exact h
  | cons op ops ih => exact ih _ (inv_applyOp db op h)

/-- C1: starting from the empty store, after any finite sequence of
create, update and delete requests, any two distinct stored rows with
the same date have disjoint half-open intervals. -/
theorem claim_C1_no_overlap_invariant (ops : List Op) :
    (run ops).rows.Pairwise (fun b1 b2 =>
      b1.date = b2.date →
        ¬(TimeLt b1.startTime b2.endTime ∧ TimeLt b2.startTime b1.endTime)) :=
  (inv_run ops).2.2

/-- When the fields validate, the conflict scan over the other rows
finds nothing, and a row with the requested id exists, the update
handler answers with the updated booking (no createdAt key in the
response) and rewrites exactly the row with that id. -/
theorem putBooking_success (db : Store) (id : Nat) (req : BookingReq)
    (hv : ¬(req.title = "" ∨ req.date = "" ∨ req.startTime = "" ∨ req.endTime = ""))
    (hnc : ∀ b ∈ db.rows, b.date = req.date → b.id ≠ id →
      conflictSqlite req.startTime req.endTime b.startTime b.endTime = false)
    (hex : ∃ b ∈ db.rows, b.id = id) :
    putBooking db id req =
      (.okBooking ⟨id, req.title, req.date, req.startTime, req.endTime,
        req.attendees, req.notes, none⟩,
       ⟨db.rows.map (fun b => if b.id = id then updRow req b else b), db.nextId⟩) := by
  have hany : (db.rows.any (fun b => b.date == req.date && b.id != id &&
      conflictSqlite req.startTime req.endTime b.startTime b.endTime)) = false := by
    rw [List.any_eq_false]
    intro b hb
    by_cases hd : b.date = req.date
    · by_cases hi : b.id = id
      · simp [hi]
      · simp [hd, hi, hnc b hb hd hi]
    · simp [hd]
  have hch : ¬(db.rows.filter (fun b => b.id == id)).length = 0 := by
    rcases hex with ⟨b, hb, hbid⟩
    intro h0
    rw [List.length_eq_zero] at h0
    have hmem : b ∈ db.rows.filter (fun x => x.id == id) :=
      List.mem_filter.mpr ⟨hb, by simp [hbid]⟩
    rw [h0] at hmem
    exact absurd hmem (List.not_mem_nil b)
  simp [putBooking, hv, hany, hch]

/-- C5: updating a stored booking to a new interval that overlaps no
other well-formed booking on the same date succeeds, because the
overlap scan of the update handler excludes the row whose id is being
updated. -/
theorem claim_C5_update_self_exclusion (db : Store) (id : Nat) (req : BookingReq)
    (hv : ¬(req.title = "" ∨ req.date = "" ∨ req.startTime = "" ∨ req.endTime = ""))
    (hreq : TimeLt req.startTime req.endTime)
    (hrows : ∀ b ∈ db.rows, TimeLt b.startTime b.endTime)
    (hex : ∃ b ∈ db.rows, b.id = id)
    (hnov : ∀ b ∈ db.rows, b.id ≠ id → b.date = req.date →
      ¬(TimeLt req.startTime b.endTime ∧ TimeLt b.startTime req.endTime)) :
    (putBooking db id req).1 =
      .okBooking ⟨id, req.title, req.date, req.startTime, req.endTime,
        req.attendees, req.notes, none⟩ := by
  have hnc : ∀ b ∈ db.rows, b.date = req.date → b.id ≠ id →
      conflictSqlite req.startTime req.endTime b.startTime b.endTime = false := by
    intro b hb hd hi
    rcases hc : conflictSqlite req.startTime req.endTime b.startTime b.endTime with _ | _
    · rfl
    · exact absurd (conflictSqlite_overlap hreq (hrows b hb) hc) (hnov b hb hi hd)
  rw [putBooking_success db id req hv hnc hex]

/-- Witness for C5 at the concrete P5 scenario: booking id 5 on
2024-01-01 over `[09:00,10:00)` updated to `[09:30,10:30)` while no
other booking occupies the date. -/
theorem claim_C5_witness :
    (putBooking ⟨[⟨5, "Standup", "2024-01-01", "09:00", "10:00", none, none, some "t0"⟩], 6⟩
        5 ⟨"Standup", "2024-01-01", "09:30", "10:30", none, none⟩).1 =
      .okBooking ⟨5, "Standup", "2024-01-01", "09:30", "10:30", none, none, none⟩ :=
  claim_C5_update_self_exclusion
    ⟨[⟨5, "Standup", "2024-01-01", "09:00", "10:00", none, none, some "t0"⟩], 6⟩
    5 ⟨"Standup", "2024-01-01", "09:30", "10:30", none, none⟩
    (by decide) (by decide) (by decide) (by decide) (by decide)

/-- C9 counterexample at a concrete input: on a successful update the
stored row keeps its original createdAt, but the response booking
carries no createdAt at all (the object literal in the handler has no
createdAt key), so the response does not carry the original createdAt
as the claim states. -/
theorem claim_C9_counterexample :
    (putBooking ⟨[⟨1, "Old", "2024-01-01", "09:00", "10:00", none, none, some "T0"⟩], 2⟩ 1
        ⟨"New", "2024-01-01", "09:30", "10:30", none, none⟩).1 =
      .okBooking ⟨1, "New", "2024-01-01", "09:30", "10:30", none, none, none⟩ ∧
    (putBooking ⟨[⟨1, "Old", "2024-01-01", "09:00", "10:00", none, none, some "T0"⟩], 2⟩ 1
        ⟨"New", "2024-01-01", "09:30", "10:30", none, none⟩).1 ≠
      .okBooking ⟨1, "New", "2024-01-01", "09:30", "10:30", none, none, some "T0"⟩ ∧
    (putBooking ⟨[⟨1, "Old", "2024-01-01", "09:00", "10:00", none, none, some "T0"⟩], 2⟩ 1
        ⟨"New", "2024-01-01", "09:30", "10:30", none, none⟩).2.rows =
      [⟨1, "New", "2024-01-01", "09:30", "10:30", none, none, some "T0"⟩] := by
  decide

/-- C9 as amended: a successful update leaves the updated row's id and
createdAt unchanged in the store, leaves every row with a different id
entirely unchanged, and returns the updated fields with the original
id; the response body carries no createdAt value. -/
theorem claim_C9_update_frame (db : Store) (id : Nat) (req : BookingReq)
    (hv : ¬(req.title = "" ∨ req.date = "" ∨ req.startTime = "" ∨ req.endTime = ""))
    (hnc : ∀ b ∈ db.rows, b.date = req.date → b.id ≠ id →
      conflictSqlite req.startTime req.endTime b.startTime b.endTime = false)
    (hex : ∃ b ∈ db.rows, b.id = id) :
    (putBooking db id req).1 =
      .okBooking ⟨id, req.title, req.date, req.startTime, req.endTime,
        req.attendees, req.notes, none⟩ ∧
    (putBooking db id req).2.nextId = db.nextId ∧
    (putBooking db id req).2.rows =
      db.rows.map (fun b => if b.id = id then updRow req b else b) ∧
    ∀ b : Booking, (updRow req b).id = b.id ∧ (updRow req b).createdAt = b.createdAt := by
  rw [putBooking_success db id req hv hnc hex]
  exact ⟨rfl, rfl, rfl, fun b => ⟨rfl, rfl⟩⟩

/-- Witness for C9 as amended, at the same concrete input as the
counterexample. -/
theorem claim_C9_witness :
    (putBooking ⟨[⟨1, "Old", "2024-01-01", "09:00", "10:00", none, none, some "T0"⟩], 2⟩ 1
        ⟨"New", "2024-01-01", "09:30", "10:30", none, none⟩).2.nextId = 2 :=
  (claim_C9_update_frame
    ⟨[⟨1, "Old", "2024-01-01", "09:00", "10:00", none, none, some "T0"⟩], 2⟩ 1
    ⟨"New", "2024-01-01", "09:30", "10:30", none, none⟩
    (by decide) (by decide) (by decide)).2.1

/-- C10: when the requested id matches no stored row but the candidate
interval is flagged against some row on the same date, the update
handler answers conflict, not not-found; and a not-found answer can
only arise when the conflict scan found nothing and no row carries the
requested id. -/
theorem claim_C10_conflict_precedes_notfound (db : Store) (id : Nat) (req : BookingReq)
    (hv : ¬(req.title = "" ∨ req.date = "" ∨ req.startTime = "" ∨ req.endTime = ""))
    (hnone : ∀ b ∈ db.rows, b.id ≠ id)
    (hconf : ∃ b ∈ db.rows, b.date = req.date ∧
      conflictSqlite req.startTime req.endTime b.startTime b.endTime = true) :
    (putBooking db id req).1 = .conflict "Time slot conflict" ∧
    ∀ (db' : Store) (id' : Nat) (req' : BookingReq) (e : String),
      (putBooking db' id' req').1 = .notFound e →
      (∀ b ∈ db'.rows, b.id ≠ id') ∧
      ∀ b ∈ db'.rows, ¬(b.date = req'.date ∧ b.id ≠ id' ∧
        conflictSqlite req'.startTime req'.endTime b.startTime b.endTime = true) := by
  constructor
  · have hany : (db.rows.any (fun b => b.date == req.date && b.id != id &&
        conflictSqlite req.startTime req.endTime b.startTime b.endTime)) = true := by
      rcases hconf with ⟨b, hb, hd, hc⟩
      rw [List.any_eq_true]
      exact ⟨b, hb, by simp [hd, hnone b hb, hc]⟩
    simp [putBooking, hv, hany]
  · intro db' id' req' e h
    by_cases hv' : req'.title = "" ∨ req'.date = "" ∨ req'.startTime = "" ∨ req'.endTime = ""
    · simp [putBooking, hv'] at h
    rcases hany' : db'.rows.any (fun b => b.date == req'.date && b.id != id' &&
        conflictSqlite req'.startTime req'.endTime b.startTime b.endTime) with _ | _
    · by_cases hch : (db'.rows.filter (fun b => b.id == id')).length = 0
      · constructor
        · intro b hb hbid
          rw [List.length_eq_zero] at hch
          have hmem : b ∈ db'.rows.filter (fun x => x.id == id') :=
            List.mem_filter.mpr ⟨hb, by simp [hbid]⟩
          rw [hch] at hmem
          exact absurd hmem (List.not_mem_nil b)
        · rw [List.any_eq_false] at hany'
          intro b hb
          rintro ⟨hd, hi, hc⟩
          have := hany' b hb
          simp [hd, hi, hc] at this
      · simp [putBooking, hv', hany', hch] at h
    · simp [putBooking, hv', hany'] at h

/-- Witness for C10: id 99 matches nothing, while the candidate
`[10:30,11:30)` overlaps the stored `[10:00,11:00)` on the same
date. -/
theorem claim_C10_witness :
    (putBooking ⟨[⟨1, "A", "2024-01-01", "10:00", "11:00", none, none, none⟩], 2⟩ 99
        ⟨"B", "2024-01-01", "10:30", "11:30", none, none⟩).1 =
      .conflict "Time slot conflict" :=
  (claim_C10_conflict_precedes_notfound
    ⟨[⟨1, "A", "2024-01-01", "10:00", "11:00", none, none, none⟩], 2⟩ 99
    ⟨"B", "2024-01-01", "10:30", "11:30", none, none⟩
    (by decide) (by decide) (by decide)).1

/-- The ORDER BY comparator is transitive. -/
theorem leStart_trans (a b c : Booking) (h1 : leStart a b) (h2 : leStart b c) :
    leStart a c := by
  simp only [leStart, TimeLe, decide_eq_true_eq] at h1 h2 ⊢
  exact le_trans h1 h2

/-- The ORDER BY comparator is total. -/
theorem leStart_total (a b : Booking) : leStart a b || leStart b a := by
  simp only [leStart, TimeLe, Bool.or_eq_true, decide_eq_true_eq]
  exact le_total _ _

/-- The by-date query relation is total: arranging the matching rows
by start time (here with merge sort) always yields an admissible
response. -/
theorem getByDate_total (db : Store) (d : String) :
    getByDate db d ((db.rows.filter (fun b => b.date == d)).mergeSort leStart) db := by
  refine ⟨rfl, List.mergeSort_perm _ _, ?_⟩
  have h := List.sorted_mergeSort leStart_trans leStart_total
    (db.rows.filter (fun b => b.date == d))
  refine h.imp ?_
  intro a b hab
  simp only [leStart, decide_eq_true_eq] at hab
  exact hab

/-- C7 counterexample: the query is ORDER BY startTime only, and SQL
leaves the order of equal-key rows unspecified.  A tie state is
reachable: since the code never validates `startTime < endTime`, two
degenerate rows with the same date and the same start time are both
admitted by the conflict query.  On that store, the response listing
the id-2 row before the id-1 row is admissible, and it violates the
claimed startTime-then-id ordering. -/
theorem claim_C7_counterexample :
    run [Op.create ⟨"A", "2024-03-01", "10:00", "09:30", none, none⟩ "t1",
         Op.create ⟨"B", "2024-03-01", "10:00", "09:00", none, none⟩ "t2"] =
      ⟨[⟨1, "A", "2024-03-01", "10:00", "09:30", none, none, some "t1"⟩,
        ⟨2, "B", "2024-03-01", "10:00", "09:00", none, none, some "t2"⟩], 3⟩ ∧
    getByDate
      ⟨[⟨1, "A", "2024-03-01", "10:00", "09:30", none, none, some "t1"⟩,
        ⟨2, "B", "2024-03-01", "10:00", "09:00", none, none, some "t2"⟩], 3⟩
      "2024-03-01"
      [⟨2, "B", "2024-03-01", "10:00", "09:00", none, none, some "t2"⟩,
       ⟨1, "A", "2024-03-01", "10:00", "09:30", none, none, some "t1"⟩]
      ⟨[⟨1, "A", "2024-03-01", "10:00", "09:30", none, none, some "t1"⟩,
        ⟨2, "B", "2024-03-01", "10:00", "09:00", none, none, some "t2"⟩], 3⟩ ∧
    ¬ ([(⟨2, "B", "2024-03-01", "10:00", "09:00", none, none, some "t2"⟩ : Booking),
        ⟨1, "A", "2024-03-01", "10:00", "09:30", none, none, some "t1"⟩].Pairwise
      (fun a b => TimeLt a.startTime b.startTime ∨
        (a.startTime = b.startTime ∧ a.id < b.id))) := by
  decide

/-- C7 as amended: for every date and store state the by-date query
leaves the store unchanged and can always answer, and every admissible
answer consists of exactly the stored rows whose date equals the
requested one, in an order that is non-decreasing in start time.  The
relative order of rows with equal start times is unspecified: the
query requests no id tie-break. -/
theorem claim_C7_list_by_date (db : Store) (d : String) :
    getByDate db d ((db.rows.filter (fun b => b.date == d)).mergeSort leStart) db ∧
    ∀ out db', getByDate db d out db' →
      db' = db ∧
      (∀ b, b ∈ out ↔ b ∈ db.rows ∧ b.date = d) ∧
      out.Pairwise (fun a b => TimeLe a.startTime b.startTime) := by
  refine ⟨getByDate_total db d, ?_⟩
  intro out db' h
  rcases h with ⟨hdb, hperm, hsort⟩
  refine ⟨hdb, ?_, hsort⟩
  intro b
  rw [hperm.mem_iff, List.mem_filter]
  simp

/-- Witness for C7 as amended, instantiating the characterization at a
concrete admissible response on a two-row store. -/
theorem claim_C7_witness :
    [(⟨1, "A", "2024-01-01", "10:00", "11:00", none, none, none⟩ : Booking)].Pairwise
      (fun a b => TimeLe a.startTime b.startTime) :=
  ((claim_C7_list_by_date
      ⟨[⟨1, "A", "2024-01-01", "10:00", "11:00", none, none, none⟩,
        ⟨2, "B", "2024-01-02", "09:00", "10:00", none, none, none⟩], 3⟩
      "2024-01-01").2
    [⟨1, "A", "2024-01-01", "10:00", "11:00", none, none, none⟩]
    ⟨[⟨1, "A", "2024-01-01", "10:00", "11:00", none, none, none⟩,
      ⟨2, "B", "2024-01-02", "09:00", "10:00", none, none, none⟩], 3⟩
    (by decide)).2.2

end MeetingRoom
